import Mathlib

/-!
Shallow embedding of the ingestion pipeline of the `pdf-rag-mcp` repository
(`src/backend/processor.py`, `src/backend/embeddings/embedding_manager.py`,
`src/backend/storage/markdown_repository.py`, `src/backend/storage/vector_store.py`,
`src/backend/config.py`) and proofs about the claims of the specification.

External collaborators (filesystem, PDF conversion backend, embedding backends)
are abstract parameters; machine state (SQLite tables, LanceDB rows, the task
queue) is explicit state threaded through the functions.
-/

namespace PdfRagMcp

/-- Helper for `pySplit`: walks the character list, accumulating the current
token in reverse; whitespace closes the current token (if any), so no empty
tokens are produced. -/
def pySplitAux : List Char → List Char → List String
  | [], [] => []
  | [], acc => [String.mk acc.reverse]
  | c :: cs, acc =>
    if c.isWhitespace then
      match acc with
      | [] => pySplitAux cs []
      | _ :: _ => String.mk acc.reverse :: pySplitAux cs []
    else pySplitAux cs (c :: acc)

/-- Python `str.split()` with no arguments: split on whitespace runs,
dropping the empty tokens that arise between consecutive separators. -/
def pySplit (s : String) : List String :=
  pySplitAux s.data []

/-- Loop of `EmbeddingManager.chunk_markdown` (embedding_manager.py, lines 104-111),
with explicit fuel; `none` models non-termination of the Python `while` loop.
Python's `start = max(0, end - overlap)` is `e - overlap` in natural-number
subtraction, which already truncates at zero. -/
def chunkLoop : Nat → List String → Nat → Nat → Nat → Option (List String)
  | 0, _, _, _, _ => none
  | fuel + 1, tokens, chunkSize, overlap, start =>
    if start < tokens.length then
      let e := min tokens.length (start + chunkSize)
      let chunk := String.intercalate " " ((tokens.drop start).take (e - start))
      if e = tokens.length then
        some [chunk]
      else
        match chunkLoop fuel tokens chunkSize overlap (e - overlap) with
        | none => none
        | some rest => some (chunk :: rest)
    else
      some []

/-- `EmbeddingManager.chunk_markdown` (embedding_manager.py, lines 97-112).
The fuel `tokens.length + 1` bounds the number of loop entries: when
`overlap < chunkSize` the start index strictly increases each iteration, so
the loop enters at most `tokens.length` times and the fuel is never exhausted
(proved below); when `overlap ≥ chunkSize` and the text is longer than one
chunk the Python loop never terminates, which the embedding reports as `none`. -/
def chunk_markdown (markdown : String) (chunkSize overlap : Nat) :
    Option (List String) :=
  let tokens := pySplit markdown
  if tokens.isEmpty then some []
  else chunkLoop (tokens.length + 1) tokens chunkSize overlap 0

/-- Specification helper: the chunk text obtained from token window
`[s, min tokens.length (s + chunkSize))`, exactly as the loop builds it. -/
def sliceAt (tokens : List String) (chunkSize s : Nat) : String :=
  String.intercalate " " ((tokens.drop s).take (min tokens.length (s + chunkSize) - s))

/-- Specification helper: number of chunks the loop produces from a window of
`m` remaining tokens (`m ≥ 1`), in natural-number ceiling-division form. -/
def chunkCount (m chunkSize overlap : Nat) : Nat :=
  1 + (m - chunkSize + (chunkSize - overlap) - 1) / (chunkSize - overlap)

lemma chunkCount_of_le {m C O : Nat} (hOC : O < C) (h : m ≤ C) : chunkCount m C O = 1 := by
  unfold chunkCount
  have h1 : m - C = 0 := by omega
  rw [h1]
  have h2 : 0 + (C - O) - 1 < C - O := by omega
  rw [Nat.div_eq_of_lt h2]

lemma chunkCount_of_gt {m C O : Nat} (hOC : O < C) (h : C < m) :
    chunkCount m C O = chunkCount (m - (C - O)) C O + 1 := by
  unfold chunkCount
  have hd : 0 < C - O := by omega
  have h1 : m - C + (C - O) - 1 = (m - C - 1) + (C - O) := by omega
  rw [h1, Nat.add_div_right _ hd]
  by_cases hy : m - (C - O) ≤ C
  · have h2 : m - (C - O) - C = 0 := by omega
    rw [h2]
    have h3 : 0 + (C - O) - 1 < C - O := by omega
    rw [Nat.div_eq_of_lt h3]
    have h4 : m - C - 1 < C - O := by omega
    rw [Nat.div_eq_of_lt h4]
  · have h2 : m - (C - O) - C + (C - O) - 1 = (m - (C - O) - C - 1) + (C - O) := by omega
    rw [h2, Nat.add_div_right _ hd]
    have h3 : m - C - 1 = (m - (C - O) - C - 1) + (C - O) := by omega
    rw [h3, Nat.add_div_right _ hd]
    omega

/-- Closed form of the chunking loop: starting at index `start < tokens.length`
with `overlap < chunkSize` and enough fuel, the loop returns the list of
slices whose start offsets advance by exactly `chunkSize - overlap`. -/
lemma chunkLoop_closed (tokens : List String) (C O : Nat) (hOC : O < C) :
    ∀ (fuel start : Nat), start < tokens.length → tokens.length - start < fuel →
      chunkLoop fuel tokens C O start =
        some ((List.range (chunkCount (tokens.length - start) C O)).map
          (fun j => sliceAt tokens C (start + j * (C - O)))) := by
  intro fuel
  induction fuel with
  | zero => intro start h1 h2; omega
  | succ fuel ih =>
    intro start h1 h2
    show chunkLoop (fuel + 1) tokens C O start = _
    rw [chunkLoop]
    rw [if_pos h1]
    by_cases he : min tokens.length (start + C) = tokens.length
    · rw [if_pos he]
      have hle : tokens.length - start ≤ C := by omega
      rw [chunkCount_of_le hOC hle]
      have hr1 : List.range 1 = [0] := rfl
      simp only [hr1, List.map_cons, List.map_nil]
      have : sliceAt tokens C (start + 0 * (C - O)) = sliceAt tokens C start := by
        norm_num
      rw [this]
      rfl
    · rw [if_neg he]
      have hmin : min tokens.length (start + C) = start + C := by omega
      have hlt : start + C < tokens.length := by omega
      have hstep : min tokens.length (start + C) - O = start + (C - O) := by omega
      rw [hstep]
      have hstart' : start + (C - O) < tokens.length := by omega
      have hfuel' : tokens.length - (start + (C - O)) < fuel := by omega
      rw [ih (start + (C - O)) hstart' hfuel']
      have hm : tokens.length - (start + (C - O)) = (tokens.length - start) - (C - O) := by
        omega
      have hgt : C < tokens.length - start := by omega
      rw [hm]
      rw [show chunkCount (tokens.length - start) C O
            = chunkCount (tokens.length - start - (C - O)) C O + 1 from
          chunkCount_of_gt hOC hgt]
      rw [List.range_succ_eq_map, List.map_cons, List.map_map]
      have hhead : sliceAt tokens C (start + 0 * (C - O))
          = String.intercalate " "
              ((tokens.drop start).take (min tokens.length (start + C) - start)) := by
        norm_num [sliceAt]
      have htail : ((List.range (chunkCount (tokens.length - start - (C - O)) C O)).map
            ((fun j => sliceAt tokens C (start + j * (C - O))) ∘ Nat.succ))
          = (List.range (chunkCount (tokens.length - start - (C - O)) C O)).map
            (fun j => sliceAt tokens C (start + (C - O) + j * (C - O))) := by
        apply List.map_congr_left
        intro j _
        simp only [Function.comp_apply]
        have : start + Nat.succ j * (C - O) = start + (C - O) + j * (C - O) := by
          rw [Nat.succ_mul]; omega
        rw [this]
      rw [hhead, htail]

lemma chunkCount_eq_claim {N C O : Nat} (hOC : O < C) :
    chunkCount N C O = max 1 ((N - O + (C - O) - 1) / (C - O)) := by
  have hd : 0 < C - O := by omega
  by_cases hc : N ≤ C
  · rw [chunkCount_of_le hOC hc]
    by_cases ho : N ≤ O
    · have h1 : N - O + (C - O) - 1 < C - O := by omega
      rw [Nat.div_eq_of_lt h1]
      decide
    · have h1 : N - O + (C - O) - 1 = (N - O - 1) + (C - O) := by omega
      rw [h1, Nat.add_div_right _ hd]
      have h2 : N - O - 1 < C - O := by omega
      rw [Nat.div_eq_of_lt h2]
      decide
  · unfold chunkCount
    have h1 : N - C + (C - O) - 1 = (N - C - 1) + (C - O) := by omega
    have h2 : N - O + (C - O) - 1 = (N - C - 1) + (C - O) + (C - O) := by omega
    rw [h1, h2, Nat.add_div_right _ hd, Nat.add_div_right _ hd, Nat.add_div_right _ hd]
    generalize (N - C - 1) / (C - O) = q
    rw [Nat.max_eq_right (by omega : 1 ≤ q + 1 + 1)]
    omega

lemma chunkCount_of_gt' {N C O : Nat} (hOC : O < C) (hc : C < N) :
    chunkCount N C O = (N - C - 1) / (C - O) + 2 := by
  have hd : 0 < C - O := by omega
  unfold chunkCount
  have h1 : N - C + (C - O) - 1 = (N - C - 1) + (C - O) := by omega
  rw [h1, Nat.add_div_right _ hd]
  omega

/-- The last chunk's token window reaches the end of the token list. -/
lemma chunkCount_last_end {N C O : Nat} (hOC : O < C) :
    N ≤ (chunkCount N C O - 1) * (C - O) + C := by
  have hd : 0 < C - O := by omega
  by_cases hc : N ≤ C
  · rw [chunkCount_of_le hOC hc]
    omega
  · obtain ⟨q, r, hq, hr, hqe⟩ :
        ∃ q r, (C - O) * q + r = N - C - 1 ∧ r < C - O ∧ (N - C - 1) / (C - O) = q :=
      ⟨(N - C - 1) / (C - O), (N - C - 1) % (C - O),
        Nat.div_add_mod _ _, Nat.mod_lt _ hd, rfl⟩
    rw [chunkCount_of_gt' hOC (by omega), hqe]
    have h2 : (q + 2 - 1) * (C - O) = (C - O) * q + (C - O) := by
      have h3 : q + 2 - 1 = q + 1 := by omega
      rw [h3]
      ring
    rw [h2]
    omega

/-- Every chunk before the last one stops strictly before the end of the
token list: the end of the text is covered by the final chunk alone. -/
lemma chunkCount_earlier_end {N C O : Nat} (hOC : O < C) :
    ∀ i : Nat, i < chunkCount N C O - 1 → i * (C - O) + C < N := by
  intro i hi
  have hd : 0 < C - O := by omega
  by_cases hc : N ≤ C
  · rw [chunkCount_of_le hOC hc] at hi
    omega
  · obtain ⟨q, r, hq, hr, hqe⟩ :
        ∃ q r, (C - O) * q + r = N - C - 1 ∧ r < C - O ∧ (N - C - 1) / (C - O) = q :=
      ⟨(N - C - 1) / (C - O), (N - C - 1) % (C - O),
        Nat.div_add_mod _ _, Nat.mod_lt _ hd, rfl⟩
    rw [chunkCount_of_gt' hOC (by omega), hqe] at hi
    have hle : i ≤ q := by omega
    have h2 : i * (C - O) ≤ q * (C - O) := Nat.mul_le_mul_right _ hle
    have h3 : q * (C - O) = (C - O) * q := by ring
    omega

/-- `chunk_markdown` on a text with at least one token, `overlap < chunkSize`:
closed form of the resulting chunk list. -/
lemma chunk_markdown_closed (md : String) (C O : Nat) (hOC : O < C)
    (hN : 0 < (pySplit md).length) :
    chunk_markdown md C O =
      some ((List.range (chunkCount (pySplit md).length C O)).map
        (fun j => sliceAt (pySplit md) C (j * (C - O)))) := by
  unfold chunk_markdown
  have hne : (pySplit md).isEmpty = false := by
    cases h : pySplit md with
    | nil => rw [h] at hN; simp at hN
    | cons a l => rfl
  simp only [hne, Bool.false_eq_true, if_false]
  rw [chunkLoop_closed (pySplit md) C O hOC ((pySplit md).length + 1) 0 hN (by omega)]
  simp only [Nat.sub_zero, Nat.zero_add]

/-- C3: for a text whose whitespace-split yields at least one token and an
overlap `O < C`, `chunk_markdown` produces exactly
`max 1 ⌈(N - O) / (C - O)⌉` chunks (written in natural-number ceiling-division
form; for `N ≤ O` the mathematical ceiling is nonpositive and the `max`
yields 1, matching the truncating subtraction); the `i`-th chunk is the token
window starting at offset `i * (C - O)`, so consecutive chunk start offsets
advance by exactly `C - O`; the final chunk's window ends exactly at the last
token, and every earlier chunk's window ends strictly before it — the end of
the text is covered exactly once, by the last chunk. -/
theorem chunk_markdown_count_and_coverage (md : String) (C O : Nat)
    (hOC : O < C) (hN : 0 < (pySplit md).length) :
    ∃ chunks : List String,
      chunk_markdown md C O = some chunks ∧
      chunks.length = max 1 (((pySplit md).length - O + (C - O) - 1) / (C - O)) ∧
      (∀ i : Nat, i < chunks.length →
        chunks.get? i = some (sliceAt (pySplit md) C (i * (C - O)))) ∧
      min (pySplit md).length ((chunks.length - 1) * (C - O) + C)
        = (pySplit md).length ∧
      (∀ i : Nat, i < chunks.length - 1 → i * (C - O) + C < (pySplit md).length) := by
  refine ⟨_, chunk_markdown_closed md C O hOC hN, ?_, ?_, ?_, ?_⟩
  · rw [List.length_map, List.length_range, chunkCount_eq_claim hOC]
  · intro i hi
    rw [List.length_map, List.length_range] at hi
    rw [List.get?_map, List.get?_range hi]
    rfl
  · rw [List.length_map, List.length_range]
    exact Nat.min_eq_left (chunkCount_last_end hOC)
  · rw [List.length_map, List.length_range]
    exact chunkCount_earlier_end hOC

/-- Witness for C3: text `"a b c"` (3 tokens), chunk size 2, overlap 1. -/
theorem chunk_markdown_count_and_coverage_witness :
    (1 : Nat) < 2 ∧ 0 < (pySplit "a b c").length ∧
    (∃ chunks : List String,
      chunk_markdown "a b c" 2 1 = some chunks ∧
      chunks.length = max 1 (((pySplit "a b c").length - 1 + (2 - 1) - 1) / (2 - 1)) ∧
      (∀ i : Nat, i < chunks.length →
        chunks.get? i = some (sliceAt (pySplit "a b c") 2 (i * (2 - 1)))) ∧
      min (pySplit "a b c").length ((chunks.length - 1) * (2 - 1) + 2)
        = (pySplit "a b c").length ∧
      (∀ i : Nat, i < chunks.length - 1 → i * (2 - 1) + 2 < (pySplit "a b c").length)) :=
  ⟨by decide, by decide,
    chunk_markdown_count_and_coverage "a b c" 2 1 (by decide) (by decide)⟩

/-- C6: for every chunk size `C` and overlap `O < C`, `chunk_markdown`
terminates on every input text: the internal fuel of one step per possible
start index is never exhausted (result `isSome`), because each loop iteration
that has not yet reached the end advances the start index from `start` to
`start + (C - O)` — the `min tokens.length (start + C) - O` step expression of
the source — which is a strict increase. -/
theorem chunk_markdown_terminates (md : String) (C O : Nat) (hOC : O < C) :
    (chunk_markdown md C O).isSome = true ∧
    (∀ start : Nat, start + C < (pySplit md).length →
      min (pySplit md).length (start + C) - O = start + (C - O) ∧
        start < start + (C - O)) := by
  constructor
  · by_cases h : (pySplit md).length = 0
    · unfold chunk_markdown
      have he : (pySplit md).isEmpty = true := by
        cases hh : pySplit md with
        | nil => rfl
        | cons a l => rw [hh] at h; simp at h
      simp [he]
    · rw [chunk_markdown_closed md C O hOC (by omega)]
      rfl
  · intro start hs
    exact ⟨by omega, by omega⟩

/-- Witness for C6: the pipeline's default parameters, text `"a b"`. -/
theorem chunk_markdown_terminates_witness :
    (50 : Nat) < 700 ∧ (chunk_markdown "a b" 700 50).isSome = true :=
  ⟨by decide, (chunk_markdown_terminates "a b" 700 50 (by decide)).1⟩

/-- Row of the `documents` table / the `MarkdownRecord` dataclass
(markdown_repository.py, lines 12-20). The `created_at` wall-clock timestamp
is not modelled (the embedding has no clock); `metadata` is a key-value list. -/
structure MarkdownRecord where
  id : Nat
  title : String
  source_path : String
  markdown : String
  content_hash : Option String
  metadata : List (String × String)
  deriving Repr, DecidableEq

/-- Row of the `failed_files` table (markdown_repository.py, lines 73-79). -/
structure FailureEntry where
  attempts : Nat
  last_error : String
  blacklisted : Bool
  deriving Repr, DecidableEq

/-- State of the SQLite database behind `MarkdownRepository`: the `documents`
table (insertion-ordered; `next_id` is the AUTOINCREMENT counter) and the
`failed_files` table keyed by source path. -/
structure RepoState where
  documents : List MarkdownRecord
  next_id : Nat
  failures : List (String × FailureEntry)
  deriving Repr, DecidableEq

/-- `MarkdownRepository.get_by_source_path` (markdown_repository.py,
lines 132-138): `SELECT * FROM documents WHERE source_path = ?`, first match. -/
def RepoState.get_by_source_path (r : RepoState) (sourcePath : String) :
    Option MarkdownRecord :=
  r.documents.find? (fun d => d.source_path == sourcePath)

/-- `MarkdownRepository.get_by_hash` (markdown_repository.py, lines 140-146):
`SELECT * FROM documents WHERE content_hash = ?`; a SQL comparison against a
`NULL` stored hash never matches, hence the `some` on the stored hash. -/
def RepoState.get_by_hash (r : RepoState) (contentHash : String) :
    Option MarkdownRecord :=
  r.documents.find? (fun d => d.content_hash == some contentHash)

/-- `MarkdownRepository.save` (markdown_repository.py, lines 84-114): INSERT a
new `documents` row and return the record carrying the AUTOINCREMENT id. -/
def RepoState.save (r : RepoState) (title : String) (sourcePath : String)
    (markdown : String) (contentHash : Option String)
    (metadata : List (String × String)) : MarkdownRecord × RepoState :=
  let record : MarkdownRecord :=
    { id := r.next_id, title := title, source_path := sourcePath,
      markdown := markdown, content_hash := contentHash, metadata := metadata }
  (record, { r with documents := r.documents ++ [record], next_id := r.next_id + 1 })

/-- `SELECT attempts, blacklisted FROM failed_files WHERE source_path = ?`:
lookup in the `failed_files` table by its primary key. -/
def lookupFailure : List (String × FailureEntry) → String → Option FailureEntry
  | [], _ => none
  | kv :: fs, p => if kv.1 == p then some kv.2 else lookupFailure fs p

/-- `UPDATE failed_files SET ... WHERE source_path = ?`: replace the entry
(entries) at the primary key. -/
def updateFailure : List (String × FailureEntry) → String → FailureEntry →
    List (String × FailureEntry)
  | [], _, _ => []
  | kv :: fs, p, e =>
    if kv.1 == p then (p, e) :: updateFailure fs p e
    else kv :: updateFailure fs p e

/-- `MarkdownRepository.record_failure` (markdown_repository.py,
lines 148-174). A path with no prior row is INSERTed with `attempts = 1` and
`blacklisted = 0` — the insert branch does not consult `max_attempts`. An
existing row has its counter incremented and is marked blacklisted once
`attempts >= max_attempts`. Returns the new state together with the returned
`attempts` and `blacklisted` dictionary values. -/
def RepoState.record_failure (r : RepoState) (sourcePath error : String)
    (maxAttempts : Nat) : RepoState × Nat × Bool :=
  match lookupFailure r.failures sourcePath with
  | none =>
    ({ r with failures := r.failures ++ [(sourcePath, ⟨1, error, false⟩)] }, 1, false)
  | some e =>
    let attempts := e.attempts + 1
    let blacklisted := if maxAttempts ≤ attempts then true else e.blacklisted
    ({ r with failures :=
        updateFailure r.failures sourcePath ⟨attempts, error, blacklisted⟩ },
      attempts, blacklisted)

/-- `MarkdownRepository.clear_failures` (markdown_repository.py,
lines 176-180): `DELETE FROM failed_files WHERE source_path = ?`. -/
def RepoState.clear_failures (r : RepoState) (sourcePath : String) : RepoState :=
  { r with failures := r.failures.filter (fun kv => kv.1 != sourcePath) }

/-- `MarkdownRepository.is_blacklisted` (markdown_repository.py,
lines 182-188): `false` when the path has no `failed_files` row. -/
def RepoState.is_blacklisted (r : RepoState) (sourcePath : String) : Bool :=
  match lookupFailure r.failures sourcePath with
  | none => false
  | some e => e.blacklisted

/-- Repository state after `k` successive `record_failure` calls for the same
path (with no intervening `clear_failures`). -/
def failuresAfter (r : RepoState) (p err : String) (maxAttempts : Nat) :
    Nat → RepoState
  | 0 => r
  | k + 1 => ((failuresAfter r p err maxAttempts k).record_failure p err maxAttempts).1

/-- The `(attempts, blacklisted)` pair returned by the `(k+1)`-th successive
`record_failure` call for the same path. -/
def failureCallResult (r : RepoState) (p err : String) (maxAttempts k : Nat) :
    Nat × Bool :=
  ((failuresAfter r p err maxAttempts k).record_failure p err maxAttempts).2

lemma lookupFailure_append_self {fs : List (String × FailureEntry)} {p : String}
    (h : lookupFailure fs p = none) (e : FailureEntry) :
    lookupFailure (fs ++ [(p, e)]) p = some e := by
  induction fs with
  | nil => simp [lookupFailure]
  | cons kv fs ih =>
    rw [lookupFailure] at h
    rw [List.cons_append, lookupFailure]
    by_cases hkv : (kv.1 == p) = true
    · rw [if_pos hkv] at h
      exact absurd h (by simp)
    · rw [if_neg hkv] at h
      rw [if_neg hkv]
      exact ih h

lemma lookupFailure_update {fs : List (String × FailureEntry)} {p : String}
    (h : (lookupFailure fs p).isSome) (e : FailureEntry) :
    lookupFailure (updateFailure fs p e) p = some e := by
  induction fs with
  | nil => simp [lookupFailure] at h
  | cons kv fs ih =>
    rw [lookupFailure] at h
    rw [updateFailure]
    by_cases hkv : (kv.1 == p) = true
    · rw [if_pos hkv] at h
      rw [if_pos hkv, lookupFailure]
      simp
    · rw [if_neg hkv] at h
      rw [if_neg hkv, lookupFailure]
      rw [if_neg hkv]
      exact ih h

/-- After `k ≥ 1` successive `record_failure` calls starting from a state with
no failure row for `p`, the stored row is `(attempts = k, blacklisted = (maxAttempts ≤ k))`,
provided `maxAttempts ≥ 2`. -/
lemma failuresAfter_lookup {r : RepoState} {p err : String} {M : Nat}
    (hM : 2 ≤ M) (h0 : lookupFailure r.failures p = none) :
    ∀ k : Nat, 1 ≤ k →
      lookupFailure (failuresAfter r p err M k).failures p
        = some ⟨k, err, decide (M ≤ k)⟩ := by
  intro k
  induction k with
  | zero => intro h; omega
  | succ k ih =>
    intro _
    show lookupFailure ((failuresAfter r p err M k).record_failure p err M).1.failures p = _
    by_cases hk : k = 0
    · subst hk
      show lookupFailure (RepoState.record_failure r p err M).1.failures p = _
      unfold RepoState.record_failure
      rw [h0]
      have hd : decide (M ≤ 1) = false := by
        rw [decide_eq_false_iff_not]
        omega
      rw [hd]
      exact lookupFailure_append_self h0 _
    · have hk1 : 1 ≤ k := by omega
      have hlook := ih hk1
      unfold RepoState.record_failure
      rw [hlook]
      simp only
      have hbl : (if M ≤ k + 1 then true else decide (M ≤ k)) = decide (M ≤ k + 1) := by
        by_cases hmk : M ≤ k + 1
        · rw [if_pos hmk, decide_eq_true hmk]
        · rw [if_neg hmk]
          have h1 : decide (M ≤ k) = false := by
            rw [decide_eq_false_iff_not]; omega
          have h2 : decide (M ≤ k + 1) = false := by
            rw [decide_eq_false_iff_not]; omega
          rw [h1, h2]
      rw [hbl]
      exact lookupFailure_update (by rw [hlook]; rfl) _

/-- C1 (amended to `maxAttempts ≥ 2`): calling `record_failure(P, error, M)`
`M` times in sequence from a state with no failure row for `P`, the `(k+1)`-th
call returns attempt count `k + 1` (so the returned count strictly increases
by one on each call) and returns `blacklisted = true` exactly on the call at
which the stored attempt count first reaches `M`, `false` on every earlier
call. For `M = 1` the code behaves otherwise (see the counterexample): the
insert branch for a first failure never consults `max_attempts`. -/
theorem record_failure_blacklists_exactly_at_max (r : RepoState)
    (p err : String) (M : Nat) (hM : 2 ≤ M)
    (h0 : lookupFailure r.failures p = none) :
    ∀ k : Nat, k < M →
      failureCallResult r p err M k = (k + 1, decide (k + 1 = M)) := by
  intro k hk
  unfold failureCallResult
  by_cases hk0 : k = 0
  · subst hk0
    show (RepoState.record_failure r p err M).2 = _
    unfold RepoState.record_failure
    rw [h0]
    have hd : decide (0 + 1 = M) = false := by
      rw [decide_eq_false_iff_not]
      omega
    rw [hd]
  · have hk1 : 1 ≤ k := by omega
    have hlook := @failuresAfter_lookup r p err M hM h0 k hk1
    unfold RepoState.record_failure
    rw [hlook]
    simp only
    have hklt : decide (M ≤ k) = false := by
      rw [decide_eq_false_iff_not]; omega
    have hbl : (if M ≤ k + 1 then true else decide (M ≤ k)) = decide (k + 1 = M) := by
      by_cases hmk : M ≤ k + 1
      · rw [if_pos hmk, decide_eq_true (by omega : k + 1 = M)]
      · rw [if_neg hmk, hklt]
        have h2 : decide (k + 1 = M) = false := by
          rw [decide_eq_false_iff_not]
          omega
        rw [h2]
    rw [hbl]

/-- Witness for C1 (amended): empty repository, `maxAttempts = 2`: the second
call (`k = 1`) reaches the maximum and reports `blacklisted = true`. -/
theorem record_failure_blacklists_exactly_at_max_witness :
    (2 : Nat) ≤ 2 ∧ lookupFailure (RepoState.mk [] 1 []).failures "p" = none ∧
    (1 : Nat) < 2 ∧
    failureCallResult (RepoState.mk [] 1 []) "p" "e" 2 1 = (2, true) :=
  ⟨by decide, by decide, by decide,
    record_failure_blacklists_exactly_at_max (RepoState.mk [] 1 []) "p" "e" 2
      (by decide) (by decide) 1 (by decide)⟩

/-- Counterexample to C1 as stated: `maxAttempts = 1` is positive, and on the
first call (`k = 0`) the stored attempt count reaches the maximum (attempts
= 1 = M), yet the call returns `blacklisted = false` — the insert branch of
`record_failure` never consults `max_attempts`. The claim requires
`blacklisted = true` on the call at which the count first reaches `M`. -/
theorem record_failure_claim_fails_at_maxAttempts_one :
    failureCallResult (RepoState.mk [] 1 []) "p" "err" 1 0 = (1, false) ∧
    ¬ failureCallResult (RepoState.mk [] 1 []) "p" "err" 1 0 = (0 + 1, decide (0 + 1 = 1)) := by
  constructor
  · rfl
  · decide

/-- The `Settings` dataclass (config.py, lines 52-83), field for field; the
values are the environment-variable fallbacks, fixed per instance. Note that
no chunk-size or chunk-overlap field exists. -/
structure Settings where
  parser_backend : String
  embedding_backend : String
  sentence_transformer_model : String
  embedding_device : String
  embedding_dimension : Nat
  openai_base_url : String
  openai_api_key : String
  openai_model : String
  database_url : String
  vector_store_path : String
  log_level : String
  data_dir : String
  frontend_dist : String
  watch_enabled : Bool
  watch_dir : String
  watch_poll_interval : Nat
  max_process_attempts : Nat
  processor_workers : Nat
  processor_queue_maxsize : Nat
  app_version : String
  deriving Repr, DecidableEq

/-- The default `Settings`: each field's fallback when its environment
variable is unset (config.py, lines 56-83; watch_dir from `_resolve_watch_dir`
with `DATA_DIR` unset). -/
def Settings.defaults : Settings where
  parser_backend := "pymupdf"
  embedding_backend := "local"
  sentence_transformer_model := "sentence-transformers/all-MiniLM-L6-v2"
  embedding_device := "cpu"
  embedding_dimension := 0
  openai_base_url := "https://api.openai.com/v1"
  openai_api_key := ""
  openai_model := "text-embedding-3-large"
  database_url := "sqlite:///data/markdown.db"
  vector_store_path := "data/vector_store.db"
  log_level := "INFO"
  data_dir := "data"
  frontend_dist := "frontend/dist"
  watch_enabled := true
  watch_dir := "data/pdfs"
  watch_poll_interval := 10
  max_process_attempts := 10
  processor_workers := 4
  processor_queue_maxsize := 100
  app_version := "dev"

/-- Modelled from the spec: the specification's configuration surface lists
`chunk size` and `chunk overlap` as configuration options (defaults 700 and
50). The source `Settings` dataclass in config.py has no such fields, so the
configuration surface the claim describes is modelled here from the spec's
words, to be compared with the source behaviour. -/
structure SpecChunkingConfig where
  chunk_size : Nat
  chunk_overlap : Nat
  deriving Repr, DecidableEq

/-- The `EmbeddingResult` dataclass (embedding_manager.py, lines 12-19);
float vector components are abstracted to integers — no claim computes with
their values, only with vector lengths and row identity. -/
structure EmbeddingResult where
  text : String
  vector : List Int
  model : String
  provider : String
  deriving Repr, DecidableEq

/-- Python exceptions crossing the embedded functions. -/
inductive PipelineError where
  | fileNotFound (msg : String)
  | parseError (msg : String)
  | valueError (msg : String)
  | dimensionMismatch (expected got : Nat)
  | backendError (msg : String)
  deriving Repr, DecidableEq

/-- One row of the LanceDB `embeddings` table (vector_store.py, lines 112-122);
the `created_at` timestamp is not modelled. -/
structure VectorRow where
  document_id : Nat
  chunk_index : Nat
  vector : List Int
  provider : String
  model : String
  text : String
  deriving Repr, DecidableEq

/-- State of the `VectorStore`: the established embedding dimension (if any),
whether the LanceDB table exists (`self._table is not None`), and its rows. -/
structure VectorStoreState where
  embedding_dim : Option Nat
  has_table : Bool
  rows : List VectorRow
  deriving Repr, DecidableEq

/-- `VectorStore.add_embeddings` (vector_store.py, lines 88-126). An empty
embedding list returns with the store unchanged. Otherwise the dimension is
taken from the store or established from the first vector (creating the table
when missing, so the `ValueError` guard on line 104 is unreachable), every
vector is checked against it — a mismatch raises before anything is persisted,
since `table.add(rows)` runs only after the loop — and one row per embedding
is appended in order, `chunk_index` being the position in the sequence. -/
def VectorStoreState.add_embeddings (vs : VectorStoreState) (documentId : Nat)
    (embeddings : List EmbeddingResult) : Except PipelineError VectorStoreState :=
  match embeddings with
  | [] => .ok vs
  | first :: _ =>
    let dim := match vs.embedding_dim with
      | some d => d
      | none => first.vector.length
    match embeddings.find? (fun e => e.vector.length != dim) with
    | some bad => .error (.dimensionMismatch dim bad.vector.length)
    | none =>
      .ok { embedding_dim := some dim, has_table := true,
            rows := vs.rows ++ embeddings.enum.map (fun ie =>
              { document_id := documentId, chunk_index := ie.1,
                vector := ie.2.vector, provider := ie.2.provider,
                model := ie.2.model, text := ie.2.text }) }

/-- A task's progress hook `on_progress(task, progress, stage)`; the result
is an `Except` so that a raising hook can be modelled. -/
def ProgressHook : Type := Nat → String → Except String Unit

/-- The `ProcessingTask` dataclass (processor.py, lines 28-37): job id,
source path, title, metadata. Of the four callback hooks only `on_progress`
is read by `_execute_pipeline` and is modelled here; the start, success and
error hooks fire in the worker loop. -/
structure ProcessingTask where
  job_id : String
  source_path : String
  title : String
  metadata : List (String × String)
  on_progress : Option ProgressHook

/-- Python's `queue.Full` exception. -/
inductive QueueError where
  | full
  deriving Repr, DecidableEq

/-- Python `queue.Queue.put(item)` with `block=False` on a queue of capacity
`maxsize` (a positive capacity — the processor builds the queue with capacity
`max 1 settings.processor_queue_maxsize`): when the queue already holds
`maxsize` items it raises `queue.Full` immediately, enqueueing nothing and
leaving the queue unchanged; otherwise the item is appended (FIFO). -/
def queuePutNowait (maxsize : Nat) (q : List ProcessingTask)
    (task : ProcessingTask) : List ProcessingTask × Except QueueError Unit :=
  if 0 < maxsize ∧ maxsize ≤ q.length then (q, .error .full)
  else (q ++ [task], .ok ())

/-- `PDFProcessor.submit_task` with `block=False` (processor.py, lines 71-78):
passes `block=False` through to the queue's put. (A blocking submit parks the
calling thread until space is available and is not modelled.) -/
def submit_task_nonblocking (maxsize : Nat) (q : List ProcessingTask)
    (task : ProcessingTask) : List ProcessingTask × Except QueueError Unit :=
  queuePutNowait maxsize q task

/-- Filesystem stat result (processor.py, lines 184-188), values already
rendered to strings; the exact formatting is irrelevant to every claim. -/
structure StatInfo where
  file_size : String
  modified_at : String
  created_at : String

/-- Python `dict.setdefault`: insert only when the key is absent. -/
def setdefault (m : List (String × String)) (k v : String) :
    List (String × String) :=
  match m.find? (fun kv => kv.1 == k) with
  | some _ => m
  | none => m ++ [(k, v)]

/-- `PDFProcessor._collect_metadata` (processor.py, lines 181-191): merge
filesystem metadata into a copy of the task metadata using `setdefault`; a
`FileNotFoundError` from `stat` is swallowed, leaving the base metadata. -/
def collect_metadata (stat : String → Option StatInfo) (path : String)
    (base : List (String × String)) : List (String × String) :=
  match stat path with
  | none => base
  | some info =>
    setdefault (setdefault (setdefault (setdefault base
      "source_path" path)
      "file_size" info.file_size)
      "modified_at" info.modified_at)
      "created_at" info.created_at

/-- Abstract external collaborators of the pipeline: path resolution
(`expanduser().resolve()`), path existence, file stat, the conversion backend
(`parser.parse_to_markdown`), the content hash (sha256 hexdigest — an
arbitrary deterministic function here), and the two embedding backends. -/
structure Env where
  resolve_path : String → String
  path_exists : String → Bool
  stat : String → Option StatInfo
  parse : String → Except PipelineError String
  compute_hash : String → String
  embed_local : List String → Except PipelineError (List EmbeddingResult)
  embed_openai : List String → Except PipelineError (List EmbeddingResult)

/-- Observable machine state threaded through the pipeline: the document
repository, the vector store, the trace of progress emissions
`(percentage, stage)`, and the invocation traces of the conversion backend
and of the embedding backend. -/
structure PipelineState where
  repo : RepoState
  vs : VectorStoreState
  events : List (Nat × String)
  parse_calls : List String
  embed_calls : List (List String)
  deriving Repr, DecidableEq

/-- `PDFProcessor._emit_progress` (processor.py, lines 204-209): invoke the
task's progress hook when present; an exception from the hook is caught and
logged, so a raising hook and a succeeding hook continue identically. Every
emission is recorded in the event trace. -/
def emit_progress (hook : Option ProgressHook) (st : PipelineState)
    (progress : Nat) (stage : String) : PipelineState :=
  match hook with
  | none => { st with events := st.events ++ [(progress, stage)] }
  | some h =>
    match h progress stage with
    | .ok _ => { st with events := st.events ++ [(progress, stage)] }
    | .error _ => { st with events := st.events ++ [(progress, stage)] }

/-- `PDFProcessor._chunk_markdown` (processor.py, lines 196-199): a method of
the processor — its `Settings` are in scope through `self` — that invokes
`EmbeddingManager.chunk_markdown` with that function's built-in defaults,
chunk size 700 and overlap 50. Since 50 < 700 the chunker always terminates,
so the `getD` default is never taken. -/
def PDFProcessor.chunk_step (_s : Settings) (markdown : String) : List String :=
  (chunk_markdown markdown 700 50).getD []

/-- `EmbeddingManager.embed_documents` (embedding_manager.py, lines 30-38):
an empty text sequence returns the empty list without touching any backend;
otherwise the backend selected by `settings.embedding_backend.lower()` is
invoked (an unrecognized name raises `ValueError`). The returned trace
extends `calls` with the argument of the backend invocation when one
happened. -/
def embed_documents (env : Env) (s : Settings) (calls : List (List String))
    (texts : List String) :
    Except PipelineError (List EmbeddingResult × List (List String)) :=
  if texts.isEmpty then .ok ([], calls)
  else if s.embedding_backend.toLower == "local" then
    match env.embed_local texts with
    | .error e => .error e
    | .ok rs => .ok (rs, calls ++ [texts])
  else if s.embedding_backend.toLower == "openai" then
    match env.embed_openai texts with
    | .error e => .error e
    | .ok rs => .ok (rs, calls ++ [texts])
  else
    .error (.valueError ("Unsupported embedding backend: "
      ++ s.embedding_backend.toLower))

/-- `PDFProcessor._execute_pipeline` (processor.py, lines 146-179), step for
step. Returns the final machine state together with the returned record or
the raised exception. -/
def execute_pipeline (env : Env) (s : Settings) (task : ProcessingTask)
    (st : PipelineState) : PipelineState × Except PipelineError MarkdownRecord :=
  let path := env.resolve_path task.source_path
  if env.path_exists path = false then
    (st, .error (.fileNotFound ("PDF not found: " ++ path)))
  else
    let metadata := collect_metadata env.stat path task.metadata
    let st1 := emit_progress task.on_progress st 15 "metadata"
    let st1b := { st1 with parse_calls := st1.parse_calls ++ [path] }
    match env.parse path with
    | .error e => (st1b, .error e)
    | .ok markdown =>
      let st2 := emit_progress task.on_progress st1b 45 "parsed"
      let content_hash := env.compute_hash markdown
      match st2.repo.get_by_hash content_hash with
      | some duplicate =>
        let st3 := emit_progress task.on_progress st2 100 "duplicate"
        (st3, .ok duplicate)
      | none =>
        let saved := st2.repo.save task.title path markdown (some content_hash) metadata
        let st3 := { st2 with repo := saved.2 }
        let chunks := PDFProcessor.chunk_step s markdown
        let st4 := emit_progress task.on_progress st3 65 "chunked"
        match embed_documents env s st4.embed_calls chunks with
        | .error e => (st4, .error e)
        | .ok (embeddings, calls) =>
          let st5 := { st4 with embed_calls := calls }
          let st6 := emit_progress task.on_progress st5 85 "embedded"
          match st6.vs.add_embeddings saved.1.id embeddings with
          | .error e => (st6, .error e)
          | .ok vs2 =>
            let st7 := { st6 with vs := vs2 }
            let st8 := emit_progress task.on_progress st7 100 "completed"
            (st8, .ok saved.1)

/-- One candidate yielded by `watch_dir.rglob` during a scan. -/
structure FileEntry where
  path : String
  is_file : Bool
  deriving Repr, DecidableEq

/-- Body of the candidate loop in `DirectoryWatcher._scan_once`
(processor.py, lines 259-297): skip non-files; skip paths with an existing
document record for the resolved path; skip blacklisted paths; otherwise
build the watcher task and submit it without blocking. A `queue.Full` from
the submit is caught (the watcher defers: the task is not enqueued) and the
scan continues with the next file. The accumulator carries the queue and the
paths for which `submit_task` was invoked. -/
def scan_step (repo : RepoState) (resolve stem : String → String)
    (maxsize : Nat) (acc : List ProcessingTask × List String)
    (f : FileEntry) : List ProcessingTask × List String :=
  if f.is_file = false then acc
  else
    let absolute_path := resolve f.path
    if (repo.get_by_source_path absolute_path).isSome then acc
    else if repo.is_blacklisted absolute_path then acc
    else
      let task : ProcessingTask :=
        { job_id := "watcher:" ++ absolute_path
          source_path := absolute_path
          title := stem absolute_path
          metadata := [("ingest_source", "watcher")]
          on_progress := some (fun _ _ => .ok ()) }
      let submit := submit_task_nonblocking maxsize acc.1 task
      (submit.1, acc.2 ++ [absolute_path])

/-- `DirectoryWatcher._scan_once` (processor.py, lines 250-297) over a given
candidate enumeration, with the repository queries succeeding (they are total
functions of the repository state here). Returns the final queue and the list
of resolved paths for which `submit_task` was invoked. -/
def scan_once (repo : RepoState) (resolve stem : String → String)
    (maxsize : Nat) (q : List ProcessingTask) (candidates : List FileEntry) :
    List ProcessingTask × List String :=
  candidates.foldl (scan_step repo resolve stem maxsize) (q, [])

/-- Concrete environment for witnesses: the filesystem knows one file
`"/doc.pdf"` whose conversion yields `"a b c"`; hashing is the identity
function; both embedding backends echo one fixed two-component vector per
text. -/
def sampleEnv : Env where
  resolve_path := fun p => p
  path_exists := fun p => p == "/doc.pdf"
  stat := fun _ => none
  parse := fun _ => Except.ok "a b c"
  compute_hash := fun m => m
  embed_local := fun texts =>
    Except.ok (texts.map (fun t => EmbeddingResult.mk t [1, 2] "m" "local"))
  embed_openai := fun texts =>
    Except.ok (texts.map (fun t => EmbeddingResult.mk t [1, 2] "m" "openai"))

/-- Concrete task for witnesses. -/
def sampleTask : ProcessingTask where
  job_id := "t1"
  source_path := "/doc.pdf"
  title := "doc"
  metadata := []
  on_progress := none

/-- The sample task, pointed at a path the sample filesystem does not have. -/
def missingTask : ProcessingTask :=
  { sampleTask with source_path := "/missing.pdf" }

/-- Empty machine state for witnesses. -/
def emptyState : PipelineState where
  repo := RepoState.mk [] 1 []
  vs := VectorStoreState.mk none false []
  events := []
  parse_calls := []
  embed_calls := []

lemma emit_progress_eq (hook : Option ProgressHook) (st : PipelineState)
    (p : Nat) (stage : String) :
    emit_progress hook st p stage
      = { st with events := st.events ++ [(p, stage)] } := by
  cases hook with
  | none => rfl
  | some h =>
    unfold emit_progress
    cases hres : h p stage with
    | ok a => simp [hres]
    | error a => simp [hres]

/-- C7: when the resolved source path does not exist at execution time, the
pipeline raises `FileNotFoundError` before doing anything else: the returned
state is exactly the input state — in particular no progress event was
emitted, the conversion backend was not invoked (`parse_calls` unchanged),
and no document record was persisted. -/
theorem execute_pipeline_source_not_found (env : Env) (s : Settings)
    (task : ProcessingTask) (st : PipelineState)
    (h : env.path_exists (env.resolve_path task.source_path) = false) :
    execute_pipeline env s task st
      = (st, .error (.fileNotFound ("PDF not found: "
          ++ env.resolve_path task.source_path))) := by
  simp only [execute_pipeline, h, if_true]

/-- Witness for C7: the sample filesystem knows only `"/doc.pdf"`, and the
task points at `"/missing.pdf"`. -/
theorem execute_pipeline_source_not_found_witness :
    sampleEnv.path_exists (sampleEnv.resolve_path missingTask.source_path) = false ∧
    execute_pipeline sampleEnv Settings.defaults missingTask emptyState
      = (emptyState, .error (.fileNotFound ("PDF not found: "
          ++ sampleEnv.resolve_path missingTask.source_path))) :=
  ⟨by decide,
    execute_pipeline_source_not_found sampleEnv Settings.defaults missingTask
      emptyState (by decide)⟩

lemma emit_progress_hook_irrelevant (hook : Option ProgressHook)
    (st : PipelineState) (p : Nat) (stage : String) :
    emit_progress hook st p stage = emit_progress none st p stage := by
  rw [emit_progress_eq, emit_progress_eq]

/-- C9: the `on_progress` hook never changes the pipeline's outcome — in
particular a hook that raises at any emission point does not: `_emit_progress`
catches every hook exception, so the executor's result (returned record or
raised error, together with the entire machine state) is identical to running
the same task with no hook installed. -/
theorem execute_pipeline_hook_immaterial (env : Env) (s : Settings)
    (task : ProcessingTask) (st : PipelineState) (hook : Option ProgressHook) :
    execute_pipeline env s { task with on_progress := hook } st
      = execute_pipeline env s { task with on_progress := none } st := by
  simp only [execute_pipeline, emit_progress_hook_irrelevant]

/-- C8: with the queue already holding exactly its (positive) maximum
capacity, a non-blocking submit raises `queue.Full` immediately, enqueues
nothing, and leaves the queue contents unchanged. -/
theorem submit_nonblocking_full (maxsize : Nat) (q : List ProcessingTask)
    (task : ProcessingTask) (hpos : 0 < maxsize) (hfull : q.length = maxsize) :
    submit_task_nonblocking maxsize q task = (q, .error .full) := by
  unfold submit_task_nonblocking queuePutNowait
  rw [if_pos ⟨hpos, by omega⟩]

/-- Witness for C8: capacity 1, one pending task. -/
theorem submit_nonblocking_full_witness :
    (0 : Nat) < 1 ∧ [sampleTask].length = 1 ∧
    submit_task_nonblocking 1 [sampleTask] sampleTask
      = ([sampleTask], .error .full) :=
  ⟨by decide, rfl,
    submit_nonblocking_full 1 [sampleTask] sampleTask (by decide) rfl⟩

/-- C4 as stated is false. The claim's configuration surface is the
spec-modelled `SpecChunkingConfig` (the source `Settings` has no chunk
fields): it is not the case that for every configuration the pipeline's
chunking step equals `chunk_markdown` at the configured chunk size and
overlap. Concrete counterexample inside the proof: configured chunk size 1
and overlap 0 on the text `"a b"` demands chunks `["a", "b"]`, while the
pipeline produces `["a b"]` (it always chunks with the built-in 700/50). -/
theorem chunk_step_not_configurable :
    ¬ (∀ (cfg : SpecChunkingConfig) (s : Settings) (md : String),
        PDFProcessor.chunk_step s md
          = (chunk_markdown md cfg.chunk_size cfg.chunk_overlap).getD []) := by
  intro h
  have h1 := h (SpecChunkingConfig.mk 1 0) Settings.defaults "a b"
  exact absurd h1 (by decide)

/-- C4 (amended): for every configuration, the chunks the pipeline's chunking
step produces for a text equal `chunk_markdown` applied with chunk size 700
and overlap 50 — the function's built-in defaults. Chunk size and overlap are
not configuration options: the `Settings` surface carries no such fields and
the step's result is independent of the settings instance. -/
theorem chunk_step_uses_defaults (s s2 : Settings) (md : String) :
    PDFProcessor.chunk_step s md = (chunk_markdown md 700 50).getD [] ∧
    PDFProcessor.chunk_step s md = PDFProcessor.chunk_step s2 md :=
  ⟨rfl, rfl⟩

/-- C2: when the extracted text's content hash already has a document record,
the pipeline returns that existing record and skips every remaining step:
the repository is unchanged (no new record persisted), the vector store is
unchanged (nothing indexed), the embedding-backend call trace is unchanged
(no embedding computed), and the final progress event is
`(100, "duplicate")`. -/
theorem execute_pipeline_duplicate (env : Env) (s : Settings)
    (task : ProcessingTask) (st : PipelineState) (md : String)
    (dup : MarkdownRecord)
    (hex : env.path_exists (env.resolve_path task.source_path) = true)
    (hparse : env.parse (env.resolve_path task.source_path) = .ok md)
    (hdup : st.repo.get_by_hash (env.compute_hash md) = some dup) :
    execute_pipeline env s task st
      = ({ st with
            events := st.events
              ++ [(15, "metadata"), (45, "parsed"), (100, "duplicate")],
            parse_calls := st.parse_calls
              ++ [env.resolve_path task.source_path] },
          .ok dup) := by
  simp only [execute_pipeline, emit_progress_eq, hex, hparse, hdup]
  simp [List.append_assoc]

/-- A record whose content hash (the sample hash of `"a b c"` is the text
itself) is already present in `dupState`. -/
def dupRecord : MarkdownRecord :=
  MarkdownRecord.mk 1 "doc" "/doc.pdf" "a b c" (some "a b c") []

/-- Machine state whose repository already holds `dupRecord`. -/
def dupState : PipelineState :=
  PipelineState.mk (RepoState.mk [dupRecord] 2 []) (VectorStoreState.mk none false [])
    [] [] []

/-- Witness for C2: re-ingesting `"/doc.pdf"` whose text `"a b c"` is already
recorded returns the existing record with stage `"duplicate"`. -/
theorem execute_pipeline_duplicate_witness :
    sampleEnv.path_exists (sampleEnv.resolve_path sampleTask.source_path) = true ∧
    sampleEnv.parse (sampleEnv.resolve_path sampleTask.source_path) = .ok "a b c" ∧
    dupState.repo.get_by_hash (sampleEnv.compute_hash "a b c") = some dupRecord ∧
    execute_pipeline sampleEnv Settings.defaults sampleTask dupState
      = ({ dupState with
            events := dupState.events
              ++ [(15, "metadata"), (45, "parsed"), (100, "duplicate")],
            parse_calls := dupState.parse_calls
              ++ [sampleEnv.resolve_path sampleTask.source_path] },
          .ok dupRecord) :=
  ⟨by decide, rfl, by decide,
    execute_pipeline_duplicate sampleEnv Settings.defaults sampleTask dupState
      "a b c" dupRecord (by decide) rfl (by decide)⟩

/-- C10: a task whose extracted text contains no whitespace-separated tokens
and whose hash is not yet recorded completes successfully rather than
erroring: `chunk_markdown` yields no chunks, `embed_documents` on the empty
sequence returns the empty list without invoking a backend (the trace is
unchanged), `add_embeddings` with an empty list leaves the vector store
unchanged, a document record is still persisted (appended with the
AUTOINCREMENT id), and the final progress event is `(100, "completed")`. -/
theorem execute_pipeline_empty_text (env : Env) (s : Settings)
    (task : ProcessingTask) (st : PipelineState) (md : String)
    (hex : env.path_exists (env.resolve_path task.source_path) = true)
    (hparse : env.parse (env.resolve_path task.source_path) = .ok md)
    (htok : pySplit md = [])
    (hnodup : st.repo.get_by_hash (env.compute_hash md) = none) :
    PDFProcessor.chunk_step s md = [] ∧
    embed_documents env s st.embed_calls [] = .ok ([], st.embed_calls) ∧
    st.vs.add_embeddings st.repo.next_id [] = .ok st.vs ∧
    execute_pipeline env s task st
      = ({ st with
            repo := RepoState.mk
              (st.repo.documents
                ++ [MarkdownRecord.mk st.repo.next_id task.title
                      (env.resolve_path task.source_path) md
                      (some (env.compute_hash md))
                      (collect_metadata env.stat (env.resolve_path task.source_path)
                        task.metadata)])
              (st.repo.next_id + 1) st.repo.failures,
            events := st.events ++ [(15, "metadata"), (45, "parsed"),
              (65, "chunked"), (85, "embedded"), (100, "completed")],
            parse_calls := st.parse_calls
              ++ [env.resolve_path task.source_path] },
          .ok (MarkdownRecord.mk st.repo.next_id task.title
                (env.resolve_path task.source_path) md
                (some (env.compute_hash md))
                (collect_metadata env.stat (env.resolve_path task.source_path)
                  task.metadata))) := by
  have hchunk : PDFProcessor.chunk_step s md = [] := by
    unfold PDFProcessor.chunk_step chunk_markdown
    rw [htok]
    rfl
  refine ⟨hchunk, rfl, rfl, ?_⟩
  simp only [execute_pipeline, emit_progress_eq, hex, hparse, hnodup, hchunk,
    RepoState.save, embed_documents, VectorStoreState.add_embeddings]
  simp [List.append_assoc]

/-- Environment whose conversion backend yields whitespace-only text. -/
def blankEnv : Env :=
  { sampleEnv with parse := fun _ => Except.ok "  " }

/-- Witness for C10: ingesting `"/doc.pdf"` with whitespace-only extracted
text `"  "` into the empty state. -/
theorem execute_pipeline_empty_text_witness :
    blankEnv.path_exists (blankEnv.resolve_path sampleTask.source_path) = true ∧
    blankEnv.parse (blankEnv.resolve_path sampleTask.source_path) = .ok "  " ∧
    pySplit "  " = [] ∧
    emptyState.repo.get_by_hash (blankEnv.compute_hash "  ") = none ∧
    (PDFProcessor.chunk_step Settings.defaults "  " = [] ∧
     embed_documents blankEnv Settings.defaults emptyState.embed_calls []
       = .ok ([], emptyState.embed_calls) ∧
     emptyState.vs.add_embeddings emptyState.repo.next_id [] = .ok emptyState.vs ∧
     execute_pipeline blankEnv Settings.defaults sampleTask emptyState
       = ({ emptyState with
             repo := RepoState.mk
               (emptyState.repo.documents
                 ++ [MarkdownRecord.mk emptyState.repo.next_id sampleTask.title
                       (blankEnv.resolve_path sampleTask.source_path) "  "
                       (some (blankEnv.compute_hash "  "))
                       (collect_metadata blankEnv.stat
                         (blankEnv.resolve_path sampleTask.source_path)
                         sampleTask.metadata)])
               (emptyState.repo.next_id + 1) emptyState.repo.failures,
             events := emptyState.events ++ [(15, "metadata"), (45, "parsed"),
               (65, "chunked"), (85, "embedded"), (100, "completed")],
             parse_calls := emptyState.parse_calls
               ++ [blankEnv.resolve_path sampleTask.source_path] },
           .ok (MarkdownRecord.mk emptyState.repo.next_id sampleTask.title
                 (blankEnv.resolve_path sampleTask.source_path) "  "
                 (some (blankEnv.compute_hash "  "))
                 (collect_metadata blankEnv.stat
                   (blankEnv.resolve_path sampleTask.source_path)
                   sampleTask.metadata)))) :=
  ⟨by decide, rfl, by decide, by decide,
    execute_pipeline_empty_text blankEnv Settings.defaults sampleTask emptyState
      "  " (by decide) rfl (by decide) (by decide)⟩

/-- The scan's eligibility test: a regular file whose resolved path has no
document record and is not blacklisted. -/
def eligible (repo : RepoState) (resolve : String → String) (f : FileEntry) : Bool :=
  f.is_file && (repo.get_by_source_path (resolve f.path)).isNone
    && !(repo.is_blacklisted (resolve f.path))

lemma scan_once_aux (repo : RepoState) (resolve stem : String → String)
    (maxsize : Nat) :
    ∀ (candidates : List FileEntry) (acc : List ProcessingTask × List String),
      (candidates.foldl (scan_step repo resolve stem maxsize) acc).2
        = acc.2 ++ (candidates.filter (eligible repo resolve)).map
            (fun f => resolve f.path) := by
  intro candidates
  induction candidates with
  | nil => intro acc; simp
  | cons f fs ih =>
    intro acc
    rw [List.foldl_cons, List.filter_cons, ih (scan_step repo resolve stem maxsize acc f)]
    cases h1 : f.is_file with
    | false =>
      have hstep : scan_step repo resolve stem maxsize acc f = acc := by
        simp [scan_step, h1]
      rw [hstep]
      simp [eligible, h1]
    | true =>
      cases h2 : (repo.get_by_source_path (resolve f.path)).isSome with
      | true =>
        have hstep : scan_step repo resolve stem maxsize acc f = acc := by
          simp [scan_step, h1, h2]
        have hnone : (repo.get_by_source_path (resolve f.path)).isNone = false := by
          cases hh : repo.get_by_source_path (resolve f.path) with
          | none => rw [hh] at h2; simp at h2
          | some v => rfl
        rw [hstep]
        simp [eligible, h1, hnone]
      | false =>
        have hnone : (repo.get_by_source_path (resolve f.path)).isNone = true := by
          cases hh : repo.get_by_source_path (resolve f.path) with
          | none => rfl
          | some v => rw [hh] at h2; simp at h2
        cases h3 : repo.is_blacklisted (resolve f.path) with
        | true =>
          have hstep : scan_step repo resolve stem maxsize acc f = acc := by
            simp [scan_step, h1, h2, h3]
          rw [hstep]
          simp [eligible, h1, hnone, h3]
        | false =>
          have hsnd : (scan_step repo resolve stem maxsize acc f).2
              = acc.2 ++ [resolve f.path] := by
            simp [scan_step, h1, h2, h3]
          rw [hsnd]
          simp [eligible, h1, hnone, h3, List.append_assoc]

/-- C5: during a single watcher scan (all repository queries succeed — they
are total functions of the repository state here), the paths for which a
task is submitted are exactly the resolved paths of the regular-file
candidates that have no document record and are not blacklisted, in scan
order — so no submission for a path with an existing record, none for a
blacklisted path, and every other eligible candidate is submitted exactly
once per scan. -/
theorem scan_once_submits_exactly_eligible (repo : RepoState)
    (resolve stem : String → String) (maxsize : Nat)
    (q : List ProcessingTask) (candidates : List FileEntry) :
    (scan_once repo resolve stem maxsize q candidates).2
      = (candidates.filter (eligible repo resolve)).map (fun f => resolve f.path) ∧
    (∀ p : String, (repo.get_by_source_path p).isSome = true →
      p ∉ (scan_once repo resolve stem maxsize q candidates).2) ∧
    (∀ p : String, repo.is_blacklisted p = true →
      p ∉ (scan_once repo resolve stem maxsize q candidates).2) := by
  have h1 : (scan_once repo resolve stem maxsize q candidates).2
      = (candidates.filter (eligible repo resolve)).map (fun f => resolve f.path) := by
    unfold scan_once
    rw [scan_once_aux repo resolve stem maxsize candidates (q, [])]
    rfl
  refine ⟨h1, ?_, ?_⟩
  · intro p hp hmem
    rw [h1] at hmem
    obtain ⟨f, hf, hfp⟩ := List.mem_map.mp hmem
    obtain ⟨_, hpred⟩ := List.mem_filter.mp hf
    unfold eligible at hpred
    rw [Bool.and_assoc, Bool.and_eq_true, Bool.and_eq_true] at hpred
    have hnone := hpred.2.1
    rw [hfp] at hnone
    cases hh : repo.get_by_source_path p with
    | none => rw [hh] at hp; simp at hp
    | some v => rw [hh] at hnone; simp at hnone
  · intro p hp hmem
    rw [h1] at hmem
    obtain ⟨f, hf, hfp⟩ := List.mem_map.mp hmem
    obtain ⟨_, hpred⟩ := List.mem_filter.mp hf
    unfold eligible at hpred
    rw [Bool.and_assoc, Bool.and_eq_true, Bool.and_eq_true] at hpred
    have hbl := hpred.2.2
    rw [hfp, hp] at hbl
    simp at hbl

/-- Repository for the C5 witness: `"/doc.pdf"` already ingested,
`"/bad.pdf"` blacklisted. -/
def scanRepo : RepoState :=
  RepoState.mk [dupRecord] 2 [("/bad.pdf", FailureEntry.mk 10 "boom" true)]

/-- Witness for C5: of three candidate files, only the fresh `"/a.pdf"` is
submitted; the ingested and the blacklisted paths are skipped. -/
theorem scan_once_submits_exactly_eligible_witness :
    (scan_once scanRepo (fun p => p) (fun p => p) 10 []
        [FileEntry.mk "/a.pdf" true, FileEntry.mk "/doc.pdf" true,
          FileEntry.mk "/bad.pdf" true]).2 = ["/a.pdf"] := by
  rw [(scan_once_submits_exactly_eligible scanRepo (fun p => p) (fun p => p) 10 []
    [FileEntry.mk "/a.pdf" true, FileEntry.mk "/doc.pdf" true,
      FileEntry.mk "/bad.pdf" true]).1]
  decide

end PdfRagMcp
